import Mathlib

/-!
DevDriver platform layer (ddcPlatform.h): allocator protocol, result strings, logging.

A shallow embedding of the inline code of
`pal/shared/devdriver/shared/legacy/core/inc/ddcPlatform.h`.

Conventions of the embedding:

* a pointer is a byte address (`Ptr`), `nullptr` is address `0`; pointer arithmetic is
  arithmetic on addresses;
* `size_t` is an unsigned integer of `w` bits (`DD_ARCH_BITS`, 64 or 32); the one `size_t`
  computation of the header that can wrap, the request size of `NewArray`, is taken
  modulo `2 ^ w`; `sizeof(size_t)` is `w / 8`;
* memory (`Mem`) gives the `size_t` word stored at an address;
* calls that leave the header (the allocator's `Alloc` and `Free`, the constructor and the
  destructor of the element type `T`, the print function) are recorded as events, in
  program order; a constructor or destructor acts on the storage of its element and does
  not change the `size_t` words of `Mem`;
* `enum Result` is declared in ddDefs.h, outside the header: its enumerators are the case
  labels of `ResultToString` and their numeric values are a parameter;
* the preprocessor symbols the header tests (`NDEBUG`, `DD_OPT_LOG_LEVEL`,
  `DD_OPT_ASSERTS_ENABLE`, `DD_OPT_ASSERTS_DEBUGBREAK`) are a `BuildConfig`; the expression
  given to an assert macro is a computation on a program state, each evaluation recorded;
* objects that can alias (`Library`) live in a heap indexed by their address; a moved
  `Thread` is a pair: the destination and the source afterwards.
-/

namespace DevDriver

/-! ## Pointers, memory, events -/

/-- A pointer: a byte address. -/
abbrev Ptr := Nat

/-- The null pointer. -/
def nullptr : Ptr := 0

/-- Memory: the `size_t` word stored at each address. -/
abbrev Mem := Ptr → Nat

/-- Macro `DD_CACHE_LINE_BYTES`, defined as 64. -/
def DD_CACHE_LINE_BYTES : Nat := 64

/-- What a call of the platform helpers does to the outside, in program order. -/
inductive Event where
  /-- Call `allocCb.Alloc(size, alignment, zero)`. -/
  | Alloc (size alignment : Nat) (zero : Bool)
  /-- Call `allocCb.Free(pMemory)`. -/
  | Free (pMemory : Ptr)
  /-- A `size_t` store: `*addr = value`. -/
  | Store (addr : Ptr) (value : Nat)
  /-- A `size_t` load from `addr`, which gave `value`. -/
  | Load (addr : Ptr) (value : Nat)
  /-- Placement default construction `new(p) T`. -/
  | Construct (p : Ptr)
  /-- Destructor call `p->~T()`. -/
  | Destruct (p : Ptr)
  deriving DecidableEq, Repr

/-- The `struct AllocCb`: the user data pointer and the allocation function
(`AllocFunc`: user data, size, alignment, zero ↦ block or null). The free function returns
nothing; its calls are recorded as `Event.Free`. -/
structure AllocCb where
  pUserdata : Ptr
  pfnAlloc : Ptr → Nat → Nat → Bool → Ptr

/-- Modelled from the spec: the body of `AllocCb::Alloc` is declared in the header but defined
elsewhere; per the spec it "delegates to the allocator's allocate function; returns null on
failure (never raises)". -/
def AllocCb.Alloc (allocCb : AllocCb) (size alignment : Nat) (zero : Bool) : Ptr :=
  allocCb.pfnAlloc allocCb.pUserdata size alignment zero

/-- Macro `DD_MALLOC(size, alignment, allocCb)`, defined as
`allocCb.Alloc(size, alignment, false)`: the returned pointer and the call made. -/
def DD_MALLOC (size alignment : Nat) (allocCb : AllocCb) : Ptr × List Event :=
  (allocCb.Alloc size alignment false, [Event.Alloc size alignment false])

/-- Macro `DD_FREE(memory, allocCb)`, defined as `allocCb.Free(memory)`. -/
def DD_FREE (memory : Ptr) (_allocCb : AllocCb) : List Event :=
  [Event.Free memory]

/-- Function `Platform::Destructor(T* p)`: runs the destructor unless `p` is null. -/
def Destructor (p : Ptr) : List Event :=
  if p ≠ nullptr then [Event.Destruct p] else []

/-- Macro `DD_DELETE(memory, allocCb)`, defined as the two statements
`Destructor(memory); DD_FREE(memory, allocCb)`. -/
def DD_DELETE (memory : Ptr) (allocCb : AllocCb) : List Event :=
  Destructor memory ++ DD_FREE memory allocCb

/-! ## NewArray / DeleteArray -/

/-- The construction loop of `NewArray`:
`for (elementIndex = 0; elementIndex < numElements; ++elementIndex) { new(p) T; ++p; }`,
from the state `(elementIndex, pCurrentElement)`; `fuel` bounds the iterations. -/
def constructLoop (sizeofT numElements : Nat) : Nat → Nat → Ptr → List Event
  | 0, _, _ => []
  | fuel + 1, elementIndex, pCurrentElement =>
    if elementIndex < numElements then
      Event.Construct pCurrentElement ::
        constructLoop sizeofT numElements fuel (elementIndex + 1) (pCurrentElement + sizeofT)
    else []

/-- The destruction loop of `DeleteArray`:
`for (elementIndex = 0; elementIndex < numElements; ++elementIndex) { p->~T(); ++p; }`. -/
def destructLoop (sizeofT numElements : Nat) : Nat → Nat → Ptr → List Event
  | 0, _, _ => []
  | fuel + 1, elementIndex, pCurrentElement =>
    if elementIndex < numElements then
      Event.Destruct pCurrentElement ::
        destructLoop sizeofT numElements fuel (elementIndex + 1) (pCurrentElement + sizeofT)
    else []

/-- Function `NewArray<T>(numElements, allocCb)` for an element type of `sizeofT` bytes on a target whose
`size_t` has `w` bits: the returned pointer, the memory afterwards and the events.
The loop runs from index 0 and needs `numElements` iterations, which is the fuel given. -/
def NewArray (w sizeofT numElements : Nat) (allocCb : AllocCb) (mem : Mem) :
    Ptr × Mem × List Event :=
  let allocSize := ((sizeofT * numElements) % 2 ^ w + DD_CACHE_LINE_BYTES) % 2 ^ w
  let allocAlign := DD_CACHE_LINE_BYTES
  let call := DD_MALLOC allocSize allocAlign allocCb
  let pMem := call.1
  if pMem ≠ nullptr then
    let pMem := pMem + DD_CACHE_LINE_BYTES
    let pNumElements := pMem - w / 8
    let mem := Function.update mem pNumElements numElements
    (pMem, mem,
      call.2 ++ Event.Store pNumElements numElements ::
        constructLoop sizeofT numElements numElements 0 pMem)
  else
    (pMem, mem, call.2)

/-- Function `DeleteArray(pElements, allocCb)`: the events (it stores nothing itself). -/
def DeleteArray (w sizeofT : Nat) (pElements : Ptr) (allocCb : AllocCb) (mem : Mem) :
    List Event :=
  if pElements ≠ nullptr then
    let pNumElements := pElements - w / 8
    let numElements := mem pNumElements
    let pBlock := pElements - DD_CACHE_LINE_BYTES
    Event.Load pNumElements numElements ::
      (destructLoop sizeofT numElements numElements 0 pElements ++ DD_FREE pBlock allocCb)
  else
    DD_FREE pElements allocCb

/-- The construction events of a trace. -/
def constructions (evs : List Event) : List Ptr :=
  evs.filterMap fun e => match e with
    | Event.Construct p => some p
    | _ => none

/-- The destruction events of a trace. -/
def destructions (evs : List Event) : List Ptr :=
  evs.filterMap fun e => match e with
    | Event.Destruct p => some p
    | _ => none

/-- The allocation requests of a trace: size, alignment, zero. -/
def allocations (evs : List Event) : List (Nat × Nat × Bool) :=
  evs.filterMap fun e => match e with
    | Event.Alloc s a z => some (s, a, z)
    | _ => none

/-- The addresses passed to the allocator's `Free` in a trace. -/
def frees (evs : List Event) : List Ptr :=
  evs.filterMap fun e => match e with
    | Event.Free p => some p
    | _ => none

/-- The stores of a trace: address, value. -/
def stores (evs : List Event) : List (Ptr × Nat) :=
  evs.filterMap fun e => match e with
    | Event.Store a v => some (a, v)
    | _ => none

/-- The loads of a trace: address, value. -/
def loads (evs : List Event) : List (Ptr × Nat) :=
  evs.filterMap fun e => match e with
    | Event.Load a v => some (a, v)
    | _ => none

/-- The constructor and destructor calls of a trace, in order. -/
def lifetimeEvents (evs : List Event) : List Event :=
  evs.filter fun e => match e with
    | Event.Construct _ => true
    | Event.Destruct _ => true
    | _ => false

/-- The addresses of the elements `0 .. n-1` of an array of `sizeofT`-byte elements starting
at `p`, in ascending index order: element `i` is at `p + i * sizeofT`. -/
def elementAddresses (p : Ptr) (sizeofT n : Nat) : List Ptr :=
  (List.range n).map fun i => p + i * sizeofT

/-- A sample allocator: every request succeeds with the block at address 4096. -/
def fixedAlloc : AllocCb := ⟨0, fun _ _ _ _ => 4096⟩

/-- A sample allocator: every request fails. -/
def failingAlloc : AllocCb := ⟨0, fun _ _ _ _ => nullptr⟩

/-- Sample memory: all words zero. -/
def zeroMem : Mem := fun _ => 0

/-! ## Log levels and the print gate -/

/-- The `enum struct LogLevel : uint8`: a level is its numeric value. -/
abbrev LogLevel := Nat

namespace LogLevel

def Debug : LogLevel := 0
def Verbose : LogLevel := 1
def Info : LogLevel := 2
def Warn : LogLevel := 3
def Error : LogLevel := 4
def Always : LogLevel := 5
def Count : LogLevel := 6
/-- Backwards compatibility for the old alert log level: `Alert = Warn`. -/
def Alert : LogLevel := Warn
def Never : LogLevel := 0xFF

end LogLevel

/-- Macro `DD_WILL_PRINT(lvl)`, defined as
`((lvl >= DD_OPT_LOG_LEVEL_VALUE) && (lvl < DevDriver::LogLevel::Count))`;
`logLevelValue` is the build's `DD_OPT_LOG_LEVEL_VALUE`. -/
def DD_WILL_PRINT (logLevelValue lvl : LogLevel) : Bool :=
  decide (lvl ≥ logLevelValue) && decide (lvl < LogLevel.Count)

/-- An argument of a printf-style call. -/
inductive PrintArg where
  | Str (s : String)
  | Num (n : Nat)
  deriving DecidableEq, Repr

/-- One call of the print function `DD_PRINT_FUNC(logLevel, format, args...)`. -/
structure PrintCall where
  level : LogLevel
  format : String
  args : List PrintArg
  deriving DecidableEq, Repr

/-- Function `LogString<logLevel>(format, args...)`: the calls of `DD_PRINT_FUNC` it makes. -/
def LogString (logLevelValue logLevel : LogLevel) (format : String) (args : List PrintArg) :
    List PrintCall :=
  if DD_WILL_PRINT logLevelValue logLevel then [⟨logLevel, format, args⟩] else []

/-- Macro `DD_PRINT(lvl, ...)`, defined as `DevDriver::LogString<lvl>(__VA_ARGS__)`. -/
def DD_PRINT (logLevelValue lvl : LogLevel) (format : String) (args : List PrintArg) :
    List PrintCall :=
  LogString logLevelValue lvl format args

/-! ## Result -/

/-- A `Result` value: the integer held by the enumeration object (any integer can be cast to
the enumeration). -/
abbrev Result := Nat

/-- The enumerators of `Result` that the header names: the case labels of `ResultToString`,
in source order. The declaration of the enumeration (ddDefs.h) is not part of the header; the
numeric value of each enumerator is a parameter `enumValue : Enumerator → Result` of the
functions below. -/
inductive Enumerator where
  | Success
  | Error
  | NotReady
  | VersionMismatch
  | Unavailable
  | Rejected
  | EndOfStream
  | Aborted
  | InsufficientMemory
  | InvalidParameter
  | InvalidClientId
  | ConnectionExists
  | FileNotFound
  | FunctionNotFound
  | InterfaceNotFound
  | EntryExists
  | FileAccessError
  | FileIoError
  | LimitReached
  | MemoryOverLimit
  | UriServiceRegistrationError
  | UriStringParseError
  | UriInvalidParameters
  | UriInvalidPostDataBlock
  | UriInvalidPostDataSize
  | UriFailedToAcquirePostBlock
  | UriFailedToOpenResponseBlock
  | UriRequestFailed
  | UriPendingRequestError
  | UriInvalidChar
  | UriInvalidJson
  | SettingsUriInvalidComponent
  | SettingsUriInvalidSettingName
  | SettingsUriInvalidSettingValue
  | SettingsUriInvalidSettingValueSize
  | InfoUriSourceNameInvalid
  | InfoUriSourceCallbackInvalid
  | InfoUriSourceAlreadyRegistered
  | InfoUriSourceWriteFailed
  | SettingsInvalidComponent
  | SettingsInvalidSettingName
  | SettingsInvalidSettingValue
  | SettingsInsufficientValueSize
  | SettingsInvalidSettingValueSize
  deriving DecidableEq, Repr

/-- The `switch` of `ResultToString`: each case label with the string literal it returns,
in source order. -/
def resultCases : List (Enumerator × String) :=
  [(.Success, "Success"),
   (.Error, "Error"),
   (.NotReady, "NotReady"),
   (.VersionMismatch, "VersionMismatch"),
   (.Unavailable, "Unavailable"),
   (.Rejected, "Rejected"),
   (.EndOfStream, "EndOfStream"),
   (.Aborted, "Aborted"),
   (.InsufficientMemory, "InsufficientMemory"),
   (.InvalidParameter, "InvalidParameter"),
   (.InvalidClientId, "InvalidClientId"),
   (.ConnectionExists, "ConnectionExists"),
   (.FileNotFound, "FileNotFound"),
   (.FunctionNotFound, "FunctionNotFound"),
   (.InterfaceNotFound, "InterfaceNotFound"),
   (.EntryExists, "EntryExists"),
   (.FileAccessError, "FileAccessError"),
   (.FileIoError, "FileIoError"),
   (.LimitReached, "LimitReached"),
   (.MemoryOverLimit, "MemoryOverLimit"),
   (.UriServiceRegistrationError, "UriServiceRegistrationError"),
   (.UriStringParseError, "UriStringParseError"),
   (.UriInvalidParameters, "UriInvalidParameters"),
   (.UriInvalidPostDataBlock, "UriInvalidPostDataBlock"),
   (.UriInvalidPostDataSize, "UriInvalidPostDataSize"),
   (.UriFailedToAcquirePostBlock, "UriFailedToAcquirePostBlock"),
   (.UriFailedToOpenResponseBlock, "UriFailedToOpenResponseBlock"),
   (.UriRequestFailed, "UriRequestFailed"),
   (.UriPendingRequestError, "UriPendingRequestError"),
   (.UriInvalidChar, "UriInvalidChar"),
   (.UriInvalidJson, "UriInvalidJson"),
   (.SettingsUriInvalidComponent, "SettingsUriInvalidComponent"),
   (.SettingsUriInvalidSettingName, "SettingsUriInvalidSettingName"),
   (.SettingsUriInvalidSettingValue, "SettingsUriInvalidSettingValue"),
   (.SettingsUriInvalidSettingValueSize, "SettingsUriInvalidSettingValueSize"),
   (.InfoUriSourceNameInvalid, "InfoUriSourceNameInvalid"),
   (.InfoUriSourceCallbackInvalid, "InfoUriSourceCallbackInvalid"),
   (.InfoUriSourceAlreadyRegistered, "InfoUriSourceAlreadyRegistered"),
   (.InfoUriSourceWriteFailed, "InfoUriSourceWriteFailed"),
   (.SettingsInvalidComponent, "SettingsInvalidComponent"),
   (.SettingsInvalidSettingName, "SettingsInvalidSettingName"),
   (.SettingsInvalidSettingValue, "SettingsInvalidSettingValue"),
   (.SettingsInsufficientValueSize, "SettingsInsufficientValueSize"),
   (.SettingsInvalidSettingValueSize, "SettingsInvalidSettingValueSize")]

/-- Function `ResultToString(result)`: the returned string and the print calls made. Control leaves the
`switch` at the case label whose value equals `result`; when there is none the diagnostic is
issued through `DD_PRINT` and the fallback literal is returned. -/
def ResultToString (enumValue : Enumerator → Result) (logLevelValue : LogLevel) (result : Result) :
    String × List PrintCall :=
  match resultCases.find? (fun c => enumValue c.1 == result) with
  | some c => (c.2, [])
  | none =>
    ("Unrecognized DevDriver::Result",
      DD_PRINT logLevelValue LogLevel.Warn "Result code %u is not handled"
        [PrintArg.Num (result % 2 ^ 32)])

/-- Function `BoolToResult(value)`: returns `value ? Result::Success : Result::Error`. -/
def BoolToResult (enumValue : Enumerator → Result) (value : Bool) : Result :=
  if value then enumValue .Success else enumValue .Error

/-- A sample numbering of the enumerators (generic codes from 0, each service block from its own
multiple of 1000), used to instantiate the theorems, which hold for every numbering. -/
def sampleResultValue : Enumerator → Result
  | .Success => 0
  | .Error => 1
  | .NotReady => 2
  | .VersionMismatch => 3
  | .Unavailable => 4
  | .Rejected => 5
  | .EndOfStream => 6
  | .Aborted => 7
  | .InsufficientMemory => 8
  | .InvalidParameter => 9
  | .InvalidClientId => 10
  | .ConnectionExists => 11
  | .FileNotFound => 12
  | .FunctionNotFound => 13
  | .InterfaceNotFound => 14
  | .EntryExists => 15
  | .FileAccessError => 16
  | .FileIoError => 17
  | .LimitReached => 18
  | .MemoryOverLimit => 19
  | .UriServiceRegistrationError => 1000
  | .UriStringParseError => 1001
  | .UriInvalidParameters => 1002
  | .UriInvalidPostDataBlock => 1003
  | .UriInvalidPostDataSize => 1004
  | .UriFailedToAcquirePostBlock => 1005
  | .UriFailedToOpenResponseBlock => 1006
  | .UriRequestFailed => 1007
  | .UriPendingRequestError => 1008
  | .UriInvalidChar => 1009
  | .UriInvalidJson => 1010
  | .SettingsUriInvalidComponent => 2000
  | .SettingsUriInvalidSettingName => 2001
  | .SettingsUriInvalidSettingValue => 2002
  | .SettingsUriInvalidSettingValueSize => 2003
  | .InfoUriSourceNameInvalid => 3000
  | .InfoUriSourceCallbackInvalid => 3001
  | .InfoUriSourceAlreadyRegistered => 3002
  | .InfoUriSourceWriteFailed => 3003
  | .SettingsInvalidComponent => 4000
  | .SettingsInvalidSettingName => 4001
  | .SettingsInvalidSettingValue => 4002
  | .SettingsInsufficientValueSize => 4003
  | .SettingsInvalidSettingValueSize => 4004

/-! ## Build configuration, asserts -/

/-- The preprocessor symbols the header tests, as the build sets them before the header is
read. -/
structure BuildConfig where
  /-- Whether `NDEBUG` is defined (a non-debug build). -/
  NDEBUG : Bool
  /-- The value of `DD_OPT_LOG_LEVEL`, when the build defines it. -/
  DD_OPT_LOG_LEVEL : Option Nat
  /-- Whether the build defines `DD_OPT_ASSERTS_ENABLE`. -/
  DD_OPT_ASSERTS_ENABLE : Bool
  /-- Whether the build defines `DD_OPT_ASSERTS_DEBUGBREAK`. -/
  DD_OPT_ASSERTS_DEBUGBREAK : Bool
  deriving DecidableEq, Repr

/-- Whether `DD_OPT_ASSERTS_ENABLE` is defined after lines 49-57: debug builds define it when
the build has not. -/
def assertsEnabled (cfg : BuildConfig) : Bool :=
  !cfg.NDEBUG || cfg.DD_OPT_ASSERTS_ENABLE

/-- Whether `DD_OPT_ASSERTS_DEBUGBREAK` is defined after lines 49-57: debug builds define it
when the build has not. -/
def assertsDebugBreak (cfg : BuildConfig) : Bool :=
  !cfg.NDEBUG || cfg.DD_OPT_ASSERTS_DEBUGBREAK

/-- Macro `DD_OPT_LOG_LEVEL_VALUE` (lines 149-159): `static_cast<LogLevel>(DD_OPT_LOG_LEVEL)`
when that is defined (a conversion to `uint8`), else `LogLevel::Error` in non-debug builds and
`LogLevel::Verbose` in debug builds. -/
def DD_OPT_LOG_LEVEL_VALUE (cfg : BuildConfig) : LogLevel :=
  match cfg.DD_OPT_LOG_LEVEL with
  | some v => v % 256
  | none => if cfg.NDEBUG then LogLevel.Error else LogLevel.Verbose

/-- What an assert or warn statement does, in program order. -/
inductive Action where
  /-- One evaluation of the expression given to the macro. -/
  | Eval
  /-- A call of the print function. -/
  | Print (call : PrintCall)
  /-- The platform's `DD_DEBUG_BREAK()`. -/
  | DebugBreak
  deriving DecidableEq, Repr

/-- Macro `DD_ASSERT_DEBUG_BREAK()`: `DD_DEBUG_BREAK()` when `DD_OPT_ASSERTS_DEBUGBREAK` is
defined, else nothing. -/
def DD_ASSERT_DEBUG_BREAK (cfg : BuildConfig) : List Action :=
  if assertsDebugBreak cfg then [Action.DebugBreak] else []

/-- Macro `DD_ASSERT(statement)` as the header defines it (the includer has not defined
`DD_ASSERT` itself). The expression `statement` is a computation on a program state of type
`S`; `file`, `line`, `func` and `text` stand for `DD_FILE`, `__LINE__`, `__func__` and
`DD_STRINGIFY(statement)`. With asserts enabled the expression is evaluated for
`check_expr_is_bool` and again for the test `if (!(statement))`. -/
def DD_ASSERT {S : Type} (cfg : BuildConfig) (file : String) (line : Nat) (func text : String)
    (statement : S → Bool × S) (s : S) : S × List Action :=
  if assertsEnabled cfg then
    let checked := statement s
    let tested := statement checked.2
    if !tested.1 then
      (tested.2,
        [Action.Eval, Action.Eval] ++
        (DD_PRINT (DD_OPT_LOG_LEVEL_VALUE cfg) LogLevel.Error
          "%s (%d): Assertion failed in %s: %s"
          [PrintArg.Str file, PrintArg.Num line, PrintArg.Str func, PrintArg.Str text]).map
          Action.Print ++
        DD_ASSERT_DEBUG_BREAK cfg)
    else
      (tested.2, [Action.Eval, Action.Eval])
  else
    (s, [])

/-- Macro `DD_WARN(statement)`: as `DD_ASSERT`, at `Warn` severity and without the debug
break. -/
def DD_WARN {S : Type} (cfg : BuildConfig) (file : String) (line : Nat) (func text : String)
    (statement : S → Bool × S) (s : S) : S × List Action :=
  if assertsEnabled cfg then
    let checked := statement s
    let tested := statement checked.2
    if !tested.1 then
      (tested.2,
        [Action.Eval, Action.Eval] ++
        (DD_PRINT (DD_OPT_LOG_LEVEL_VALUE cfg) LogLevel.Warn
          "%s (%d): Warning triggered in %s: %s"
          [PrintArg.Str file, PrintArg.Num line, PrintArg.Str func, PrintArg.Str text]).map
          Action.Print)
    else
      (tested.2, [Action.Eval, Action.Eval])
  else
    (s, [])

/-- The print calls of a list of actions. -/
def printCalls (acts : List Action) : List PrintCall :=
  acts.filterMap fun a => match a with
    | Action.Print c => some c
    | _ => none

/-- The number of debug breaks in a list of actions. -/
def debugBreaks (acts : List Action) : Nat :=
  acts.count Action.DebugBreak

/-- A sample non-debug build that enables asserts but not the debug break, log level left
at its default. -/
def releaseWithAsserts : BuildConfig := ⟨true, none, true, false⟩

/-- A sample debug build that sets the log level to `Always`. -/
def debugAlwaysOnly : BuildConfig := ⟨false, some 5, false, false⟩

/-- A sample expression without side effects on a state of type `Unit`: the constant
`false`. -/
def constFalse : Unit → Bool × Unit := fun s => (false, s)

/-! ## Thread -/

/-- The data members of `class Thread`.
Modelled from the spec: `ThreadHandle`, `kInvalidThreadHandle` and `Event` are declared in the
platform headers, not in this header. Per the spec a thread "wraps exactly one native-OS
resource handle": the handle is a scalar value, the invalid handle a parameter of the
functions that need it, and the event is the value of its storage. -/
structure Thread where
  pFnFunction : Ptr
  pParameter : Ptr
  hThread : Nat
  onExit : Nat
  deriving DecidableEq, Repr

/-- The move constructor `Thread(Thread&& other) noexcept = default`: each member is
move-constructed from the member of `other`. The pointers and the handle are scalars, whose
move is a copy; `Event` declares a destructor and no move constructor, so its move is its
copy. Returns the new object and `other` afterwards. -/
def Thread.moveConstruct (other : Thread) : Thread × Thread :=
  (⟨other.pFnFunction, other.pParameter, other.hThread, other.onExit⟩, other)

/-- The move assignment `Thread& operator=(Thread&& other) noexcept = default`: each member
is move-assigned from the member of `other`. Returns the assigned object and `other`
afterwards. -/
def Thread.moveAssign (_self other : Thread) : Thread × Thread :=
  (⟨other.pFnFunction, other.pParameter, other.hThread, other.onExit⟩, other)

/-- Modelled from the spec: the body of `Thread::IsJoinable` is not in the header; per the
spec it "is true only when a native thread handle is currently held". -/
def Thread.IsJoinable (kInvalidThreadHandle : Nat) (t : Thread) : Bool :=
  t.hThread != kInvalidThreadHandle

/-! ## Random -/

namespace Random

/-- Constant `kModulus = (uint64(1) << 48)`. -/
def kModulus : Nat := (1 <<< 48) % 2 ^ 64

/-- Constant `kMultiplier = 0X5DEECE66Dull`. -/
def kMultiplier : Nat := 0x5DEECE66D

/-- Constant `kIncrement = 0xB`, a `uint16`. -/
def kIncrement : Nat := 0xB

end Random

/-! ## Library -/

/-- The `Library` objects in memory: the member `m_hLib` of the instance at each address. -/
abbrev LibraryHeap := Ptr → Ptr

/-- The native calls a `Library` makes: opening a module by name, closing a handle. -/
inductive LibraryCall where
  | Load (pLibraryName : String)
  | Close (hLib : Ptr)
  deriving DecidableEq, Repr

/-- Method `Library::IsLoaded`: `m_hLib != nullptr`. -/
def Library.IsLoaded (heap : LibraryHeap) (self : Ptr) : Bool :=
  heap self != nullptr

/-- Method `Library::Swap(pLibrary)` on the instance at `self`:
`m_hLib = pLibrary->m_hLib; pLibrary->m_hLib = nullptr;`. Returns the objects afterwards and
the native calls made, of which there are none. -/
def Library.Swap (heap : LibraryHeap) (self pLibrary : Ptr) : LibraryHeap × List LibraryCall :=
  let heap := Function.update heap self (heap pLibrary)
  let heap := Function.update heap pLibrary nullptr
  (heap, [])

/-- Sample objects: a `Library` at address 1 holding handle 100, one at address 2 holding
handle 200, no other instance loaded. -/
def twoLibraries : LibraryHeap := fun a => if a = 1 then 100 else if a = 2 then 200 else 0

/-! ## Further observations and samples -/

/-- The number of evaluations of the macro's expression in a list of actions. -/
def evaluations (acts : List Action) : Nat :=
  acts.count Action.Eval

/-- A sample expression with a side effect: it counts its evaluations in the state and has
the value `v`. -/
def countingExpr (v : Bool) : Nat → Bool × Nat := fun n => (v, n + 1)

/-- Sample objects: the `Library` instances at addresses 1 and 2 both hold handle 100 (the
same module opened twice), no other instance loaded. -/
def sharedLibraries : LibraryHeap := fun a => if a = 1 then 100 else if a = 2 then 100 else 0

/-- Modelled from the spec: the body of `Random::Generate` is not in the header, which holds
the constants only; per the spec the state advances by the linear-congruential recurrence
"state' = (state * MULTIPLIER + INCREMENT) mod MODULUS". This is the recurrence on exact
integers. -/
def Random.next (state : Nat) : Nat :=
  (state * Random.kMultiplier + Random.kIncrement) % Random.kModulus

/-- Modelled from the spec: the same recurrence computed on the `uint64` state word
`m_prevState`, the product and the sum each wrapping at `2 ^ 64`, before the reduction
modulo `kModulus`. -/
def Random.nextWrapped (state : Nat) : Nat :=
  ((state * Random.kMultiplier % 2 ^ 64 + Random.kIncrement) % 2 ^ 64) % Random.kModulus

/-! ## Loops -/

theorem elementAddresses_succ (p : Ptr) (sizeofT n : Nat) :
    elementAddresses p sizeofT (n + 1) = p :: elementAddresses (p + sizeofT) sizeofT n := by
  unfold elementAddresses
  rw [List.range_succ_eq_map, List.map_cons, List.map_map]
  refine congrArg₂ List.cons (by simp) (List.map_congr_left ?_)
  intro i _
  simp only [Function.comp_apply, Nat.succ_eq_add_one]
  ring

theorem elementAddresses_length (p : Ptr) (sizeofT n : Nat) :
    (elementAddresses p sizeofT n).length = n := by
  simp [elementAddresses]

/-- The construction loop leaves by its own test: any fuel of at least the remaining
iterations gives one construction per remaining element, in ascending address order. -/
theorem constructLoop_eq (sizeofT numElements : Nat) :
    ∀ (fuel elementIndex : Nat) (p : Ptr), numElements - elementIndex ≤ fuel →
      constructLoop sizeofT numElements fuel elementIndex p =
        (elementAddresses p sizeofT (numElements - elementIndex)).map Event.Construct := by
  intro fuel
  induction fuel with
  | zero =>
    intro i p h
    have h0 : numElements - i = 0 := by omega
    simp [constructLoop, h0, elementAddresses]
  | succ fuel ih =>
    intro i p h
    unfold constructLoop
    by_cases hlt : i < numElements
    · have hs : numElements - i = (numElements - (i + 1)) + 1 := by omega
      rw [if_pos hlt, ih (i + 1) (p + sizeofT) (by omega), hs, elementAddresses_succ]
      rfl
    · have h0 : numElements - i = 0 := by omega
      rw [if_neg hlt, h0]
      rfl

/-- The destruction loop leaves by its own test, as the construction loop does. -/
theorem destructLoop_eq (sizeofT numElements : Nat) :
    ∀ (fuel elementIndex : Nat) (p : Ptr), numElements - elementIndex ≤ fuel →
      destructLoop sizeofT numElements fuel elementIndex p =
        (elementAddresses p sizeofT (numElements - elementIndex)).map Event.Destruct := by
  intro fuel
  induction fuel with
  | zero =>
    intro i p h
    have h0 : numElements - i = 0 := by omega
    simp [destructLoop, h0, elementAddresses]
  | succ fuel ih =>
    intro i p h
    unfold destructLoop
    by_cases hlt : i < numElements
    · have hs : numElements - i = (numElements - (i + 1)) + 1 := by omega
      rw [if_pos hlt, ih (i + 1) (p + sizeofT) (by omega), hs, elementAddresses_succ]
      rfl
    · have h0 : numElements - i = 0 := by omega
      rw [if_neg hlt, h0]
      rfl

/-! ## Observations on traces of constructions and destructions -/

theorem constructions_map_Construct (l : List Ptr) :
    constructions (l.map Event.Construct) = l := by
  induction l with
  | nil => rfl
  | cons a l ih => simpa [constructions] using ih

theorem constructions_map_Destruct (l : List Ptr) :
    constructions (l.map Event.Destruct) = [] := by
  induction l with
  | nil => rfl
  | cons a l _ => simp [constructions]

theorem destructions_map_Destruct (l : List Ptr) :
    destructions (l.map Event.Destruct) = l := by
  induction l with
  | nil => rfl
  | cons a l ih => simpa [destructions] using ih

theorem destructions_map_Construct (l : List Ptr) :
    destructions (l.map Event.Construct) = [] := by
  induction l with
  | nil => rfl
  | cons a l _ => simp [destructions]

theorem lifetimeEvents_map_Construct (l : List Ptr) :
    lifetimeEvents (l.map Event.Construct) = l.map Event.Construct := by
  induction l with
  | nil => rfl
  | cons a l _ => simp [lifetimeEvents]

theorem lifetimeEvents_map_Destruct (l : List Ptr) :
    lifetimeEvents (l.map Event.Destruct) = l.map Event.Destruct := by
  induction l with
  | nil => rfl
  | cons a l _ => simp [lifetimeEvents]

/-! ## NewArray and DeleteArray, path by path -/

/-- The success path of `NewArray`: when the allocator returns a block `base`, the result is
the pointer `base + 64`, the memory with the count stored in the word before it, and the
events: the request, the store of the count, one construction per element. -/
theorem NewArray_success (w sizeofT n : Nat) (allocCb : AllocCb) (mem : Mem)
    (h : allocCb.Alloc ((sizeofT * n % 2 ^ w + 64) % 2 ^ w) 64 false ≠ nullptr) :
    NewArray w sizeofT n allocCb mem =
      (allocCb.Alloc ((sizeofT * n % 2 ^ w + 64) % 2 ^ w) 64 false + 64,
        Function.update mem
          (allocCb.Alloc ((sizeofT * n % 2 ^ w + 64) % 2 ^ w) 64 false + 64 - w / 8) n,
        Event.Alloc ((sizeofT * n % 2 ^ w + 64) % 2 ^ w) 64 false ::
          Event.Store
            (allocCb.Alloc ((sizeofT * n % 2 ^ w + 64) % 2 ^ w) 64 false + 64 - w / 8) n ::
          (elementAddresses
            (allocCb.Alloc ((sizeofT * n % 2 ^ w + 64) % 2 ^ w) 64 false + 64)
            sizeofT n).map Event.Construct) := by
  unfold NewArray
  simp only [DD_MALLOC, DD_CACHE_LINE_BYTES]
  rw [if_pos h, constructLoop_eq sizeofT n n 0 _ (by omega)]
  simp

/-- The failure path of `NewArray`: when the allocator returns null, the result is null, the
memory is the one given, and the request is the only event. -/
theorem NewArray_failure (w sizeofT n : Nat) (allocCb : AllocCb) (mem : Mem)
    (h : allocCb.Alloc ((sizeofT * n % 2 ^ w + 64) % 2 ^ w) 64 false = nullptr) :
    NewArray w sizeofT n allocCb mem =
      (nullptr, mem, [Event.Alloc ((sizeofT * n % 2 ^ w + 64) % 2 ^ w) 64 false]) := by
  unfold NewArray
  simp only [DD_MALLOC, DD_CACHE_LINE_BYTES]
  rw [if_neg (not_not.mpr h), h]

/-- On either path `NewArray` makes one allocation request: the wrapped size, alignment 64,
no zeroing. -/
theorem allocations_NewArray (w sizeofT n : Nat) (allocCb : AllocCb) (mem : Mem) :
    allocations (NewArray w sizeofT n allocCb mem).2.2 =
      [((sizeofT * n % 2 ^ w + 64) % 2 ^ w, 64, false)] := by
  by_cases h : allocCb.Alloc ((sizeofT * n % 2 ^ w + 64) % 2 ^ w) 64 false = nullptr
  · rw [NewArray_failure w sizeofT n allocCb mem h]
    rfl
  · rw [NewArray_success w sizeofT n allocCb mem h]
    simp [allocations, List.filterMap_cons]

/-- The non-null path of `DeleteArray`: the load of the count, one destruction per counted
element, then `Free` of the address 64 bytes before the elements. -/
theorem DeleteArray_nonnull (w sizeofT : Nat) (p : Ptr) (allocCb : AllocCb) (mem : Mem)
    (h : p ≠ nullptr) :
    DeleteArray w sizeofT p allocCb mem =
      Event.Load (p - w / 8) (mem (p - w / 8)) ::
        ((elementAddresses p sizeofT (mem (p - w / 8))).map Event.Destruct ++
          [Event.Free (p - 64)]) := by
  unfold DeleteArray
  rw [if_pos h]
  simp only [DD_FREE, DD_CACHE_LINE_BYTES]
  rw [destructLoop_eq sizeofT _ _ 0 p (by omega)]
  simp

/-! ## Claims on NewArray, DeleteArray and DD_DELETE -/

/-- C1: for every pointer `p` returned non-null by `NewArray<T>(n, alloc)`, where the
allocator's allocate call returned `base`, `DeleteArray(p, alloc)`, run in any memory `mem'`
whose header word is still the one `NewArray` left, reads back exactly the count `n` that
`NewArray` stored and passes to the allocator's `Free` exactly the address `base`, which is
`p` minus `DD_CACHE_LINE_BYTES`, and never the element-data address `p`. -/
theorem C1_DeleteArray_reads_count_and_frees_base (w sizeofT n : Nat) (allocCb : AllocCb)
    (mem mem' : Mem) (base p : Ptr)
    (hbase : allocCb.Alloc ((sizeofT * n % 2 ^ w + 64) % 2 ^ w) 64 false = base)
    (hret : (NewArray w sizeofT n allocCb mem).1 = p)
    (hnonnull : p ≠ nullptr)
    (hheader : mem' (p - w / 8) = (NewArray w sizeofT n allocCb mem).2.1 (p - w / 8)) :
    stores (NewArray w sizeofT n allocCb mem).2.2 = [(p - w / 8, n)] ∧
    loads (DeleteArray w sizeofT p allocCb mem') = [(p - w / 8, n)] ∧
    frees (DeleteArray w sizeofT p allocCb mem') = [base] ∧
    base = p - DD_CACHE_LINE_BYTES ∧
    p ∉ frees (DeleteArray w sizeofT p allocCb mem') := by
  have hb : allocCb.Alloc ((sizeofT * n % 2 ^ w + 64) % 2 ^ w) 64 false ≠ nullptr := by
    intro h0
    rw [NewArray_failure w sizeofT n allocCb mem h0] at hret
    exact hnonnull hret.symm
  rw [NewArray_success w sizeofT n allocCb mem hb, hbase] at hret hheader
  rw [NewArray_success w sizeofT n allocCb mem hb, hbase]
  simp only at hret hheader
  subst hret
  rw [Function.update_same] at hheader
  rw [DeleteArray_nonnull w sizeofT _ allocCb mem' hnonnull, hheader]
  have hfree : frees (Event.Load (base + 64 - w / 8) n ::
      ((elementAddresses (base + 64) sizeofT n).map Event.Destruct ++
        [Event.Free (base + 64 - 64)])) = [base] := by
    simp [frees, List.filterMap_append, List.filterMap_cons]
  refine ⟨?_, ?_, hfree, ?_, ?_⟩
  · simp [stores, List.filterMap_cons]
  · simp [loads, List.filterMap_append, List.filterMap_cons]
  · simp [DD_CACHE_LINE_BYTES]
  · rw [hfree]
    simp

/-- Witness of C1: a 3-element array of 4-byte elements from the allocator that returns the
block at 4096, on a 64-bit target. -/
theorem C1_DeleteArray_reads_count_and_frees_base_witness :
    stores (NewArray 64 4 3 fixedAlloc zeroMem).2.2 = [(4160 - 64 / 8, 3)] ∧
    loads (DeleteArray 64 4 4160 fixedAlloc (NewArray 64 4 3 fixedAlloc zeroMem).2.1) =
      [(4160 - 64 / 8, 3)] ∧
    frees (DeleteArray 64 4 4160 fixedAlloc (NewArray 64 4 3 fixedAlloc zeroMem).2.1) =
      [4096] ∧
    4096 = 4160 - DD_CACHE_LINE_BYTES ∧
    4160 ∉ frees (DeleteArray 64 4 4160 fixedAlloc (NewArray 64 4 3 fixedAlloc zeroMem).2.1) :=
  C1_DeleteArray_reads_count_and_frees_base 64 4 3 fixedAlloc zeroMem
    (NewArray 64 4 3 fixedAlloc zeroMem).2.1 4096 4160 rfl (by decide) (by decide) rfl

/-- C2: for every `n` and every allocator whose allocation succeeds,
`DeleteArray(NewArray<T>(n, alloc), alloc)` performs exactly `n` default constructions and
exactly `n` destructions, of the elements of indices `0 .. n-1` (element `i` at
`p + i * sizeof(T)`) each exactly once, both in ascending index order, with all constructions
before any destruction: the constructor and destructor calls of the two calls together are
the constructions of elements `0 .. n-1` followed by the destructions of elements
`0 .. n-1`. -/
theorem C2_NewArray_DeleteArray_lifetimes (w sizeofT n : Nat) (allocCb : AllocCb) (mem : Mem)
    (hsucc : allocCb.Alloc ((sizeofT * n % 2 ^ w + 64) % 2 ^ w) 64 false ≠ nullptr) :
    lifetimeEvents ((NewArray w sizeofT n allocCb mem).2.2 ++
        DeleteArray w sizeofT (NewArray w sizeofT n allocCb mem).1 allocCb
          (NewArray w sizeofT n allocCb mem).2.1) =
      (elementAddresses (NewArray w sizeofT n allocCb mem).1 sizeofT n).map Event.Construct ++
      (elementAddresses (NewArray w sizeofT n allocCb mem).1 sizeofT n).map Event.Destruct ∧
    constructions ((NewArray w sizeofT n allocCb mem).2.2 ++
        DeleteArray w sizeofT (NewArray w sizeofT n allocCb mem).1 allocCb
          (NewArray w sizeofT n allocCb mem).2.1) =
      elementAddresses (NewArray w sizeofT n allocCb mem).1 sizeofT n ∧
    destructions ((NewArray w sizeofT n allocCb mem).2.2 ++
        DeleteArray w sizeofT (NewArray w sizeofT n allocCb mem).1 allocCb
          (NewArray w sizeofT n allocCb mem).2.1) =
      elementAddresses (NewArray w sizeofT n allocCb mem).1 sizeofT n ∧
    (elementAddresses (NewArray w sizeofT n allocCb mem).1 sizeofT n).length = n := by
  rw [NewArray_success w sizeofT n allocCb mem hsucc]
  simp only
  rw [DeleteArray_nonnull w sizeofT _ allocCb _ (by simp [nullptr]), Function.update_same]
  refine ⟨?_, ?_, ?_, elementAddresses_length _ _ _⟩
  · have h1 := lifetimeEvents_map_Construct
      (elementAddresses (allocCb.Alloc ((sizeofT * n % 2 ^ w + 64) % 2 ^ w) 64 false + 64)
        sizeofT n)
    have h2 := lifetimeEvents_map_Destruct
      (elementAddresses (allocCb.Alloc ((sizeofT * n % 2 ^ w + 64) % 2 ^ w) 64 false + 64)
        sizeofT n)
    unfold lifetimeEvents at h1 h2 ⊢
    simp only [List.filter_cons, List.filter_append, List.cons_append, List.filter_nil]
    rw [h1, h2]
    simp
  · have h1 := constructions_map_Construct
      (elementAddresses (allocCb.Alloc ((sizeofT * n % 2 ^ w + 64) % 2 ^ w) 64 false + 64)
        sizeofT n)
    have h2 := constructions_map_Destruct
      (elementAddresses (allocCb.Alloc ((sizeofT * n % 2 ^ w + 64) % 2 ^ w) 64 false + 64)
        sizeofT n)
    unfold constructions at h1 h2 ⊢
    simp only [List.filterMap_cons, List.filterMap_append, List.cons_append,
      List.filterMap_nil]
    rw [h1, h2]
    simp
  · have h1 := destructions_map_Construct
      (elementAddresses (allocCb.Alloc ((sizeofT * n % 2 ^ w + 64) % 2 ^ w) 64 false + 64)
        sizeofT n)
    have h2 := destructions_map_Destruct
      (elementAddresses (allocCb.Alloc ((sizeofT * n % 2 ^ w + 64) % 2 ^ w) 64 false + 64)
        sizeofT n)
    unfold destructions at h1 h2 ⊢
    simp only [List.filterMap_cons, List.filterMap_append, List.cons_append,
      List.filterMap_nil]
    rw [h1, h2]
    simp

/-- Witness of C2: a 3-element array of 4-byte elements from the allocator that returns the
block at 4096, on a 64-bit target. -/
theorem C2_NewArray_DeleteArray_lifetimes_witness :
    lifetimeEvents ((NewArray 64 4 3 fixedAlloc zeroMem).2.2 ++
        DeleteArray 64 4 (NewArray 64 4 3 fixedAlloc zeroMem).1 fixedAlloc
          (NewArray 64 4 3 fixedAlloc zeroMem).2.1) =
      (elementAddresses (NewArray 64 4 3 fixedAlloc zeroMem).1 4 3).map Event.Construct ++
      (elementAddresses (NewArray 64 4 3 fixedAlloc zeroMem).1 4 3).map Event.Destruct ∧
    constructions ((NewArray 64 4 3 fixedAlloc zeroMem).2.2 ++
        DeleteArray 64 4 (NewArray 64 4 3 fixedAlloc zeroMem).1 fixedAlloc
          (NewArray 64 4 3 fixedAlloc zeroMem).2.1) =
      elementAddresses (NewArray 64 4 3 fixedAlloc zeroMem).1 4 3 ∧
    destructions ((NewArray 64 4 3 fixedAlloc zeroMem).2.2 ++
        DeleteArray 64 4 (NewArray 64 4 3 fixedAlloc zeroMem).1 fixedAlloc
          (NewArray 64 4 3 fixedAlloc zeroMem).2.1) =
      elementAddresses (NewArray 64 4 3 fixedAlloc zeroMem).1 4 3 ∧
    (elementAddresses (NewArray 64 4 3 fixedAlloc zeroMem).1 4 3).length = 3 :=
  C2_NewArray_DeleteArray_lifetimes 64 4 3 fixedAlloc zeroMem (by decide)

/-- C3: for every `n`, when the allocator's allocate function returns null,
`NewArray<T>(n, alloc)` returns null, performs zero constructions of `T` and writes nothing
to memory: the memory is unchanged and no store (of the header count) is made. -/
theorem C3_NewArray_failed_allocation (w sizeofT n : Nat) (allocCb : AllocCb) (mem : Mem)
    (hfail : allocCb.Alloc ((sizeofT * n % 2 ^ w + 64) % 2 ^ w) 64 false = nullptr) :
    (NewArray w sizeofT n allocCb mem).1 = nullptr ∧
    (NewArray w sizeofT n allocCb mem).2.1 = mem ∧
    constructions (NewArray w sizeofT n allocCb mem).2.2 = [] ∧
    stores (NewArray w sizeofT n allocCb mem).2.2 = [] := by
  rw [NewArray_failure w sizeofT n allocCb mem hfail]
  exact ⟨rfl, rfl, rfl, rfl⟩

/-- Witness of C3: a request for 3 elements of 4 bytes to the allocator that always fails. -/
theorem C3_NewArray_failed_allocation_witness :
    (NewArray 64 4 3 failingAlloc zeroMem).1 = nullptr ∧
    (NewArray 64 4 3 failingAlloc zeroMem).2.1 = zeroMem ∧
    constructions (NewArray 64 4 3 failingAlloc zeroMem).2.2 = [] ∧
    stores (NewArray 64 4 3 failingAlloc zeroMem).2.2 = [] :=
  C3_NewArray_failed_allocation 64 4 3 failingAlloc zeroMem rfl

/-- C4, as stated, fails where the size computation wraps: on a 64-bit target, for 16-byte
elements and `n = 2 ^ 60`, the one request `NewArray` makes is of 64 bytes, which is not
`sizeof(T) * n + 64`. -/
theorem C4_counterexample_request_size_wraps :
    allocations (NewArray 64 16 (2 ^ 60) fixedAlloc zeroMem).2.2 = [(64, 64, false)] ∧
    (64 : Nat) ≠ 16 * 2 ^ 60 + 64 := by
  rw [allocations_NewArray]
  constructor
  · norm_num
  · norm_num

/-- C4 (amended): for every `n` for which `sizeof(T) * n + 64` fits in `size_t`,
`NewArray<T>(n, alloc)` makes exactly one allocation request, of `sizeof(T) * n + 64` bytes at
64-byte alignment with `zero = false`, and on success (the allocator returned a non-null
`base`) it returns the address 64 bytes past the allocator's block and stores `n`, once, in
the `size_t` word at the returned address minus `sizeof(size_t)`, the word that ends
immediately before the returned address; that word holds `n` in the memory afterwards. -/
theorem C4_NewArray_request_and_header (w sizeofT n : Nat) (allocCb : AllocCb) (mem : Mem)
    (base : Ptr)
    (hfit : sizeofT * n + 64 < 2 ^ w)
    (hbase : allocCb.Alloc (sizeofT * n + 64) 64 false = base) :
    allocations (NewArray w sizeofT n allocCb mem).2.2 = [(sizeofT * n + 64, 64, false)] ∧
    (base ≠ nullptr →
      (NewArray w sizeofT n allocCb mem).1 = base + 64 ∧
      stores (NewArray w sizeofT n allocCb mem).2.2 = [(base + 64 - w / 8, n)] ∧
      (NewArray w sizeofT n allocCb mem).2.1 (base + 64 - w / 8) = n) := by
  have hsize : (sizeofT * n % 2 ^ w + 64) % 2 ^ w = sizeofT * n + 64 := by
    have h1 : sizeofT * n < 2 ^ w := by omega
    rw [Nat.mod_eq_of_lt h1, Nat.mod_eq_of_lt hfit]
  by_cases hnull : base = nullptr
  · have hfail : allocCb.Alloc ((sizeofT * n % 2 ^ w + 64) % 2 ^ w) 64 false = nullptr := by
      rw [hsize, hbase, hnull]
    rw [NewArray_failure w sizeofT n allocCb mem hfail, hsize]
    exact ⟨rfl, fun h => absurd hnull h⟩
  · have hsucc : allocCb.Alloc ((sizeofT * n % 2 ^ w + 64) % 2 ^ w) 64 false ≠ nullptr := by
      rw [hsize, hbase]
      exact hnull
    rw [NewArray_success w sizeofT n allocCb mem hsucc, hsize, hbase]
    refine ⟨?_, fun _ => ⟨rfl, ?_, ?_⟩⟩
    · simp [allocations, List.filterMap_cons]
    · simp [stores, List.filterMap_cons]
    · simp

/-- Witness of C4: 3 elements of 4 bytes on a 64-bit target, allocator returning the block
at 4096. -/
theorem C4_NewArray_request_and_header_witness :
    allocations (NewArray 64 4 3 fixedAlloc zeroMem).2.2 = [(4 * 3 + 64, 64, false)] ∧
    (4096 ≠ nullptr →
      (NewArray 64 4 3 fixedAlloc zeroMem).1 = 4096 + 64 ∧
      stores (NewArray 64 4 3 fixedAlloc zeroMem).2.2 = [(4096 + 64 - 64 / 8, 3)] ∧
      (NewArray 64 4 3 fixedAlloc zeroMem).2.1 (4096 + 64 - 64 / 8) = 3) :=
  C4_NewArray_request_and_header 64 4 3 fixedAlloc zeroMem 4096 (by norm_num) rfl

/-- C5, as stated, fails: `DeleteArray` called with a null pointer does call the allocator's
`Free`, with the null pointer. -/
theorem C5_counterexample_null_is_freed :
    frees (DeleteArray 64 4 nullptr fixedAlloc zeroMem) = [nullptr] ∧
    frees (DeleteArray 64 4 nullptr fixedAlloc zeroMem) ≠ [] := by
  decide

/-- C5 (amended): `DeleteArray` called with a null pointer runs no destructor and reads no
header; its only effect is one call of the allocator's `Free`, with the null pointer. -/
theorem C5_DeleteArray_null (w sizeofT : Nat) (allocCb : AllocCb) (mem : Mem) :
    DeleteArray w sizeofT nullptr allocCb mem = [Event.Free nullptr] ∧
    destructions (DeleteArray w sizeofT nullptr allocCb mem) = [] ∧
    loads (DeleteArray w sizeofT nullptr allocCb mem) = [] ∧
    frees (DeleteArray w sizeofT nullptr allocCb mem) = [nullptr] := by
  have h : DeleteArray w sizeofT nullptr allocCb mem = [Event.Free nullptr] := by
    unfold DeleteArray
    rw [if_neg (by simp)]
    rfl
  rw [h]
  exact ⟨rfl, rfl, rfl, rfl⟩

/-- C6: for every pointer `p`, `DD_DELETE(p, alloc)` runs the destructor of `T` (on `p`)
exactly once if `p` is non-null and not at all if `p` is null, and afterwards, as its last
action, calls `alloc.Free(p)`, exactly once. -/
theorem C6_DD_DELETE (p : Ptr) (allocCb : AllocCb) :
    destructions (DD_DELETE p allocCb) = (if p ≠ nullptr then [p] else []) ∧
    frees (DD_DELETE p allocCb) = [p] ∧
    (DD_DELETE p allocCb).getLast? = some (Event.Free p) ∧
    (DD_DELETE p allocCb).length = (if p ≠ nullptr then 2 else 1) := by
  unfold DD_DELETE Destructor DD_FREE
  by_cases h : p = nullptr
  · rw [if_neg (not_not.mpr h), if_neg (not_not.mpr h), if_neg (not_not.mpr h)]
    exact ⟨rfl, rfl, rfl, rfl⟩
  · rw [if_pos h, if_pos h, if_pos h]
    exact ⟨rfl, rfl, rfl, rfl⟩

/-! ## The switch of ResultToString -/

/-- Every enumerator is a case label of the switch. -/
theorem resultCases_complete (e : Enumerator) : ∃ c ∈ resultCases, c.1 = e := by
  cases e <;> decide

/-- The string literals of the switch are pairwise distinct. -/
theorem resultCases_strings_nodup : (resultCases.map Prod.snd).Nodup := by
  decide

/-- No string literal of the switch is empty, and none is the fallback literal. -/
theorem resultCases_strings_ne :
    ∀ c ∈ resultCases, c.2 ≠ "" ∧ c.2 ≠ "Unrecognized DevDriver::Result" := by
  decide

/-- On the value of an enumerator the switch is left at a case label of that value, with the
string of that label and without a print call. -/
theorem ResultToString_enumerated (enumValue : Enumerator → Result) (logLevelValue : LogLevel)
    (e : Enumerator) :
    ∃ c ∈ resultCases, enumValue c.1 = enumValue e ∧
      ResultToString enumValue logLevelValue (enumValue e) = (c.2, []) := by
  unfold ResultToString
  cases hfind : resultCases.find? (fun c => enumValue c.1 == enumValue e) with
  | none =>
    exfalso
    obtain ⟨c, hc, hce⟩ := resultCases_complete e
    have h := List.find?_eq_none.mp hfind c hc
    simp [hce] at h
  | some c =>
    refine ⟨c, List.mem_of_find?_eq_some hfind, ?_, rfl⟩
    have h := List.find?_some hfind
    simpa using h

/-- On a value of no enumerator no case label matches: the fallback literal is returned after
the `DD_PRINT` at `Warn`. -/
theorem ResultToString_unrecognized (enumValue : Enumerator → Result) (logLevelValue : LogLevel)
    (result : Result) (hout : ∀ e, enumValue e ≠ result) :
    ResultToString enumValue logLevelValue result =
      ("Unrecognized DevDriver::Result",
        DD_PRINT logLevelValue LogLevel.Warn "Result code %u is not handled"
          [PrintArg.Num (result % 2 ^ 32)]) := by
  unfold ResultToString
  have hfind : resultCases.find? (fun c => enumValue c.1 == result) = none := by
    rw [List.find?_eq_none]
    intro c _
    simpa using hout c.1
  rw [hfind]

/-! ## Claims on ResultToString and BoolToResult -/

/-- C7: `ResultToString` returns a non-empty string for every enumerated `Result` value, and
the strings are pairwise distinct: for all enumerated `r1 != r2` (the values of enumerators
`e1`, `e2`), `ResultToString(r1) != ResultToString(r2)`. -/
theorem C7_ResultToString_nonempty_distinct (enumValue : Enumerator → Result)
    (logLevelValue : LogLevel) (e1 e2 : Enumerator) (hne : enumValue e1 ≠ enumValue e2) :
    (ResultToString enumValue logLevelValue (enumValue e1)).1 ≠ "" ∧
    (ResultToString enumValue logLevelValue (enumValue e2)).1 ≠ "" ∧
    (ResultToString enumValue logLevelValue (enumValue e1)).1 ≠
      (ResultToString enumValue logLevelValue (enumValue e2)).1 := by
  obtain ⟨c1, hc1, hv1, hr1⟩ := ResultToString_enumerated enumValue logLevelValue e1
  obtain ⟨c2, hc2, hv2, hr2⟩ := ResultToString_enumerated enumValue logLevelValue e2
  rw [hr1, hr2]
  refine ⟨(resultCases_strings_ne c1 hc1).1, (resultCases_strings_ne c2 hc2).1, ?_⟩
  intro heq
  have hcc : c1 = c2 :=
    List.inj_on_of_nodup_map resultCases_strings_nodup hc1 hc2 heq
  apply hne
  rw [← hv1, ← hv2, hcc]

/-- Witness of C7: the enumerators `Success` and `Error` in the sample numbering. -/
theorem C7_ResultToString_nonempty_distinct_witness :
    (ResultToString sampleResultValue LogLevel.Error (sampleResultValue .Success)).1 ≠ "" ∧
    (ResultToString sampleResultValue LogLevel.Error (sampleResultValue .Error)).1 ≠ "" ∧
    (ResultToString sampleResultValue LogLevel.Error (sampleResultValue .Success)).1 ≠
      (ResultToString sampleResultValue LogLevel.Error (sampleResultValue .Error)).1 :=
  C7_ResultToString_nonempty_distinct sampleResultValue LogLevel.Error .Success .Error
    (by decide)

/-- C8: `ResultToString` is total (a function defined on every integer), and for every integer
value that is not one of the enumerated `Result` values it returns the fixed fallback string
"Unrecognized DevDriver::Result"; that fallback string is returned for no enumerated value. -/
theorem C8_ResultToString_fallback (enumValue : Enumerator → Result) (logLevelValue : LogLevel)
    (result : Result) (hout : ∀ e, enumValue e ≠ result) :
    (ResultToString enumValue logLevelValue result).1 = "Unrecognized DevDriver::Result" ∧
    ∀ e, (ResultToString enumValue logLevelValue (enumValue e)).1 ≠
      "Unrecognized DevDriver::Result" := by
  refine ⟨?_, ?_⟩
  · rw [ResultToString_unrecognized enumValue logLevelValue result hout]
  · intro e
    obtain ⟨c, hc, _, hr⟩ := ResultToString_enumerated enumValue logLevelValue e
    rw [hr]
    exact (resultCases_strings_ne c hc).2

/-- Witness of C8: the integer 20, which the sample numbering gives to no enumerator. -/
theorem C8_ResultToString_fallback_witness :
    (ResultToString sampleResultValue LogLevel.Error 20).1 =
      "Unrecognized DevDriver::Result" ∧
    ∀ e, (ResultToString sampleResultValue LogLevel.Error (sampleResultValue e)).1 ≠
      "Unrecognized DevDriver::Result" :=
  C8_ResultToString_fallback sampleResultValue LogLevel.Error 20
    (by intro e; cases e <;> decide)

/-- C9, as stated, fails: with the configured minimum `LogLevel::Error` (the default of a
non-debug build) the fallback path is taken for the integer 20, which the sample numbering
gives to no enumerator, and the print function is not invoked. -/
theorem C9_counterexample_warn_filtered :
    (∀ e, sampleResultValue e ≠ 20) ∧
    ResultToString sampleResultValue LogLevel.Error 20 =
      ("Unrecognized DevDriver::Result", []) := by
  refine ⟨?_, by decide⟩
  intro e
  cases e <;> decide

/-- C9 (amended): whenever `ResultToString` takes the fallback path (its argument is outside
the enumeration), it issues its diagnostic through `DD_PRINT` at `Warn` severity, so that the
print function is invoked, exactly once, with `LogLevel::Warn`, the format
"Result code %u is not handled" and the code as `uint32`, if the configured minimum log level
is at most `Warn`, and is not invoked if the configured minimum is above `Warn`; for
enumerated values no diagnostic is emitted. -/
theorem C9_ResultToString_diagnostic (enumValue : Enumerator → Result) (logLevelValue : LogLevel)
    (result : Result) (hout : ∀ e, enumValue e ≠ result) :
    (ResultToString enumValue logLevelValue result).2 =
      (if logLevelValue ≤ LogLevel.Warn then
        [⟨LogLevel.Warn, "Result code %u is not handled", [PrintArg.Num (result % 2 ^ 32)]⟩]
       else []) ∧
    ∀ e, (ResultToString enumValue logLevelValue (enumValue e)).2 = [] := by
  refine ⟨?_, ?_⟩
  · rw [ResultToString_unrecognized enumValue logLevelValue result hout]
    simp only [DD_PRINT, LogString, DD_WILL_PRINT, LogLevel.Warn, LogLevel.Count]
    by_cases h : logLevelValue ≤ 3
    · simp [h]
    · simp [h]
  · intro e
    obtain ⟨c, _, _, hr⟩ := ResultToString_enumerated enumValue logLevelValue e
    rw [hr]

/-- Witness of C9: the integer 20 in the sample numbering, with the configured minimum
`LogLevel::Verbose` (the default of a debug build). -/
theorem C9_ResultToString_diagnostic_witness :
    (ResultToString sampleResultValue LogLevel.Verbose 20).2 =
      (if LogLevel.Verbose ≤ LogLevel.Warn then
        [⟨LogLevel.Warn, "Result code %u is not handled", [PrintArg.Num (20 % 2 ^ 32)]⟩]
       else []) ∧
    ∀ e, (ResultToString sampleResultValue LogLevel.Verbose (sampleResultValue e)).2 = [] :=
  C9_ResultToString_diagnostic sampleResultValue LogLevel.Verbose 20
    (by intro e; cases e <;> decide)

/-- C10: `BoolToResult(true)` is `Result::Success` and `BoolToResult(false)` is
`Result::Error`; hence, `Success` and `Error` being different values, `BoolToResult(b)` is
`Result::Success` if and only if `b` is true. -/
theorem C10_BoolToResult (enumValue : Enumerator → Result) (b : Bool)
    (hdistinct : enumValue .Success ≠ enumValue .Error) :
    BoolToResult enumValue true = enumValue .Success ∧
    BoolToResult enumValue false = enumValue .Error ∧
    (BoolToResult enumValue b = enumValue .Success ↔ b = true) := by
  refine ⟨rfl, rfl, ?_⟩
  cases b
  · simp only [BoolToResult]
    constructor
    · intro h
      exact absurd h.symm hdistinct
    · intro h
      cases h
  · simp [BoolToResult]

/-- Witness of C10: the sample numbering, `b = false`. -/
theorem C10_BoolToResult_witness :
    BoolToResult sampleResultValue true = sampleResultValue .Success ∧
    BoolToResult sampleResultValue false = sampleResultValue .Error ∧
    (BoolToResult sampleResultValue false = sampleResultValue .Success ↔ false = true) :=
  C10_BoolToResult sampleResultValue false (by decide)

/-! ## Claims on the print gate -/

/-- C11: for every level value and every configured minimum, `DD_WILL_PRINT(level)` is true if
and only if `level >= configuredMinimum` and `level < LogLevel::Count`, where levels compare
by their numeric order `Debug < Verbose < Info < Warn < Error < Always < Count`. -/
theorem C11_DD_WILL_PRINT_iff (logLevelValue lvl : LogLevel) :
    (DD_WILL_PRINT logLevelValue lvl = true ↔ lvl ≥ logLevelValue ∧ lvl < LogLevel.Count) ∧
    LogLevel.Debug < LogLevel.Verbose ∧ LogLevel.Verbose < LogLevel.Info ∧
    LogLevel.Info < LogLevel.Warn ∧ LogLevel.Warn < LogLevel.Error ∧
    LogLevel.Error < LogLevel.Always ∧ LogLevel.Always < LogLevel.Count := by
  refine ⟨?_, by decide, by decide, by decide, by decide, by decide, by decide⟩
  simp [DD_WILL_PRINT]

/-- C12: for every level `L` below the configured minimum, `LogString<L>(format, args...)`
never calls the sink `DD_PRINT_FUNC`; for every `L` with `DD_WILL_PRINT(L)` it calls the sink
exactly once, with level `L` and the caller's format and arguments unchanged. -/
theorem C12_LogString_filters_and_forwards (logLevelValue logLevel : LogLevel)
    (format : String) (args : List PrintArg) :
    (logLevel < logLevelValue → LogString logLevelValue logLevel format args = []) ∧
    (DD_WILL_PRINT logLevelValue logLevel = true →
      LogString logLevelValue logLevel format args = [⟨logLevel, format, args⟩]) := by
  constructor
  · intro hlt
    have hno : DD_WILL_PRINT logLevelValue logLevel = false := by
      simp only [DD_WILL_PRINT, Bool.and_eq_false_imp, decide_eq_true_eq]
      intro hge
      exact absurd hge (Nat.not_le.mpr hlt)
    simp [LogString, hno]
  · intro hyes
    simp [LogString, hyes]

/-! ## Claims on Library, Thread, asserts and Random -/

/-- C13, as stated, fails: with `a` (at address 1) holding handle 100 and `b` (at address 2)
holding handle 200, after `a.Swap(&b)` the instance `a` holds 200 but `b` holds null, not the
handle 100 that `a` held. -/
theorem C13_counterexample_source_is_nulled :
    (Library.Swap twoLibraries 1 2).1 1 = 200 ∧
    (Library.Swap twoLibraries 1 2).1 2 = nullptr ∧
    (Library.Swap twoLibraries 1 2).1 2 ≠ twoLibraries 1 := by
  decide

/-- C13 (amended): `Library::Swap` hands ownership over in one direction: for every pair of
distinct `Library` instances `a` and `b` holding handles `ha` and `hb`, after `a.Swap(&b)` the
instance `a` holds `hb` and the instance `b` holds null (`b.IsLoaded()` is false); every other
instance is untouched and no load or close is performed. -/
theorem C13_Library_Swap_transfers (heap : LibraryHeap) (a b : Ptr) (hdistinct : a ≠ b) :
    (Library.Swap heap a b).1 a = heap b ∧
    (Library.Swap heap a b).1 b = nullptr ∧
    Library.IsLoaded (Library.Swap heap a b).1 b = false ∧
    (∀ c, c ≠ a → c ≠ b → (Library.Swap heap a b).1 c = heap c) ∧
    (Library.Swap heap a b).2 = [] := by
  have hb : (Library.Swap heap a b).1 b = nullptr := by
    simp [Library.Swap]
  refine ⟨?_, hb, ?_, ?_, rfl⟩
  · simp [Library.Swap, Function.update_noteq hdistinct]
  · simp [Library.IsLoaded, hb]
  · intro c hca hcb
    simp [Library.Swap, Function.update_noteq hca, Function.update_noteq hcb]

/-- Witness of C13 (amended): the instances at addresses 1 and 2 of the sample objects. -/
theorem C13_Library_Swap_transfers_witness :
    (Library.Swap twoLibraries 1 2).1 1 = twoLibraries 2 ∧
    (Library.Swap twoLibraries 1 2).1 2 = nullptr ∧
    Library.IsLoaded (Library.Swap twoLibraries 1 2).1 2 = false ∧
    (∀ c, c ≠ 1 → c ≠ 2 → (Library.Swap twoLibraries 1 2).1 c = twoLibraries c) ∧
    (Library.Swap twoLibraries 1 2).2 = [] :=
  C13_Library_Swap_transfers twoLibraries 1 2 (by decide)

/-- C14 fails on the code: the defaulted move constructor and move assignment copy the
members and leave the source as it was. For a started thread (function 4096, parameter 8192,
handle 7, with 0 as the invalid handle) the destination receives the four members, but the
source still holds the handle 7 and is still joinable. -/
theorem C14_defaulted_move_keeps_source_handle :
    (Thread.moveConstruct ⟨4096, 8192, 7, 1⟩).1 = ⟨4096, 8192, 7, 1⟩ ∧
    (Thread.moveConstruct ⟨4096, 8192, 7, 1⟩).2.hThread = 7 ∧
    Thread.IsJoinable 0 (Thread.moveConstruct ⟨4096, 8192, 7, 1⟩).2 = true ∧
    (Thread.moveAssign ⟨0, 0, 0, 0⟩ ⟨4096, 8192, 7, 1⟩).1 = ⟨4096, 8192, 7, 1⟩ ∧
    (Thread.moveAssign ⟨0, 0, 0, 0⟩ ⟨4096, 8192, 7, 1⟩).2.hThread = 7 ∧
    Thread.IsJoinable 0 (Thread.moveAssign ⟨0, 0, 0, 0⟩ ⟨4096, 8192, 7, 1⟩).2 = true := by
  decide

/-- C15, as stated, fails at both of its effects. In a non-debug build that defines
`DD_OPT_ASSERTS_ENABLE` but not `DD_OPT_ASSERTS_DEBUGBREAK`, a failed `DD_ASSERT` prints and
does not break; in a debug build with `DD_OPT_LOG_LEVEL` set to `Always`, a failed
`DD_ASSERT` breaks and prints nothing. -/
theorem C15_counterexample_gated_print_and_break :
    assertsEnabled releaseWithAsserts = true ∧
    (printCalls (DD_ASSERT releaseWithAsserts "a.cpp" 10 "f" "x" constFalse ()).2).length = 1 ∧
    debugBreaks (DD_ASSERT releaseWithAsserts "a.cpp" 10 "f" "x" constFalse ()).2 = 0 ∧
    assertsEnabled debugAlwaysOnly = true ∧
    printCalls (DD_ASSERT debugAlwaysOnly "a.cpp" 10 "f" "x" constFalse ()).2 = [] ∧
    debugBreaks (DD_ASSERT debugAlwaysOnly "a.cpp" 10 "f" "x" constFalse ()).2 = 1 := by
  decide

/-- C15 (amended): when asserts are compiled in, `DD_ASSERT(cond)` with `cond` false at the
test issues through `DD_PRINT` an Error-level diagnostic naming the file, line, function and
failed expression, which reaches the print function if and only if the configured minimum
log level is at most `Error`, and then triggers the debug break if and only if
`DD_OPT_ASSERTS_DEBUGBREAK` is defined (as it is in every debug build); with `cond` true, or
when asserts are not compiled in, it prints nothing and does not break. -/
theorem C15_DD_ASSERT {S : Type} (cfg : BuildConfig) (file : String) (line : Nat)
    (func text : String) (statement : S → Bool × S) (s : S) :
    (assertsEnabled cfg = true → (statement (statement s).2).1 = false →
      (DD_ASSERT cfg file line func text statement s).2 =
        [Action.Eval, Action.Eval] ++
        (if DD_OPT_LOG_LEVEL_VALUE cfg ≤ LogLevel.Error then
          [Action.Print ⟨LogLevel.Error, "%s (%d): Assertion failed in %s: %s",
            [PrintArg.Str file, PrintArg.Num line, PrintArg.Str func, PrintArg.Str text]⟩]
         else []) ++
        (if assertsDebugBreak cfg = true then [Action.DebugBreak] else [])) ∧
    ((assertsEnabled cfg = false ∨ (statement (statement s).2).1 = true) →
      printCalls (DD_ASSERT cfg file line func text statement s).2 = [] ∧
      debugBreaks (DD_ASSERT cfg file line func text statement s).2 = 0) := by
  constructor
  · intro hen hfalse
    simp only [DD_ASSERT, hen, hfalse, if_true, Bool.not_false, DD_ASSERT_DEBUG_BREAK,
      DD_PRINT, LogString, DD_WILL_PRINT, LogLevel.Error, LogLevel.Count]
    by_cases hlvl : DD_OPT_LOG_LEVEL_VALUE cfg ≤ 4
    · simp [hlvl]
    · simp [hlvl]
  · intro h
    by_cases hen : assertsEnabled cfg = true
    · have htrue : (statement (statement s).2).1 = true := by
        rcases h with h | h
        · rw [h] at hen
          cases hen
        · exact h
      simp [DD_ASSERT, hen, htrue, printCalls, debugBreaks]
    · simp [DD_ASSERT, hen, printCalls, debugBreaks]

/-- C16: the constants of `Random` describe a linear-congruential recurrence over 48-bit
state: `kModulus` equals `2^48`, `kMultiplier` is odd and satisfies
`0 < kMultiplier < kModulus`, and `kIncrement` is a small constant (11, a `uint16`) with
`kIncrement < kModulus`. -/
theorem C16_Random_constants :
    Random.kModulus = 2 ^ 48 ∧
    Random.kMultiplier % 2 = 1 ∧
    0 < Random.kMultiplier ∧
    Random.kMultiplier < Random.kModulus ∧
    Random.kIncrement = 11 ∧
    Random.kIncrement < 2 ^ 16 ∧
    Random.kIncrement < Random.kModulus := by
  decide

/-! ## Claims on the log level defaults -/

/-- The print gate on numbers: true exactly from the minimum up to `Always`. -/
theorem DD_WILL_PRINT_eq_true_iff (a b : Nat) :
    DD_WILL_PRINT a b = true ↔ a ≤ b ∧ b < 6 := by
  simp [DD_WILL_PRINT, LogLevel.Count]

/-- The print gate on numbers: false exactly below the minimum and from `Count` on. -/
theorem DD_WILL_PRINT_eq_false_iff (a b : Nat) :
    DD_WILL_PRINT a b = false ↔ ¬ (a ≤ b ∧ b < 6) := by
  rw [← DD_WILL_PRINT_eq_true_iff]
  simp

/-- With the minimum at 4 (`Error`) the gate passes exactly 4 and 5. -/
theorem DD_WILL_PRINT_from_Error_iff (b : Nat) :
    DD_WILL_PRINT 4 b = true ↔ b = 4 ∨ b = 5 := by
  rw [DD_WILL_PRINT_eq_true_iff]
  omega

/-- With the minimum at 1 (`Verbose`) the gate passes exactly 1 to 5. -/
theorem DD_WILL_PRINT_from_Verbose_iff (b : Nat) :
    DD_WILL_PRINT 1 b = true ↔ b = 1 ∨ b = 2 ∨ b = 3 ∨ b = 4 ∨ b = 5 := by
  rw [DD_WILL_PRINT_eq_true_iff]
  omega

/-- C17: when the configured minimum level is `LogLevel::Never` (0xFF), `DD_WILL_PRINT(level)`
is false for every level value (each of the 256 values of a `uint8`, and any other number),
so `LogString` never calls the sink; and for every configured minimum, a message logged at
level `Never` or at any level `>= Count` is never printed. -/
theorem C17_Never_disables_printing (logLevelValue lvl : LogLevel) (format : String)
    (args : List PrintArg) :
    LogLevel.Never = 0xFF ∧
    DD_WILL_PRINT LogLevel.Never lvl = false ∧
    LogString LogLevel.Never lvl format args = [] ∧
    DD_WILL_PRINT logLevelValue LogLevel.Never = false ∧
    LogString logLevelValue LogLevel.Never format args = [] ∧
    (LogLevel.Count ≤ lvl →
      DD_WILL_PRINT logLevelValue lvl = false ∧
      LogString logLevelValue lvl format args = []) := by
  have h1 : DD_WILL_PRINT LogLevel.Never lvl = false := by
    rw [DD_WILL_PRINT_eq_false_iff]
    simp only [LogLevel.Never]
    omega
  have h2 : DD_WILL_PRINT logLevelValue LogLevel.Never = false := by
    rw [DD_WILL_PRINT_eq_false_iff]
    simp only [LogLevel.Never]
    omega
  have h3 : LogLevel.Count ≤ lvl → DD_WILL_PRINT logLevelValue lvl = false := by
    intro hge
    have hge' : 6 ≤ (id lvl : Nat) := hge
    rw [DD_WILL_PRINT_eq_false_iff]
    simp only [id] at hge'
    omega
  refine ⟨rfl, h1, ?_, h2, ?_, ?_⟩
  · simp [LogString, h1]
  · simp [LogString, h2]
  · intro hge
    exact ⟨h3 hge, by simp [LogString, h3 hge]⟩

/-- C18: when `DD_OPT_LOG_LEVEL` is not defined, a non-debug (`NDEBUG`) build prints exactly
the `Error` and `Always` levels (`DD_WILL_PRINT` is true for those two and false for every
other level, `Debug`, `Verbose`, `Info` and `Warn` among them), and a debug build prints
exactly `Verbose`, `Info`, `Warn`, `Error` and `Always` (of the levels only `Debug` is
filtered). -/
theorem C18_default_log_levels (cfg : BuildConfig) (lvl : LogLevel)
    (hundefined : cfg.DD_OPT_LOG_LEVEL = none) :
    (cfg.NDEBUG = true →
      (DD_WILL_PRINT (DD_OPT_LOG_LEVEL_VALUE cfg) lvl = true ↔
        lvl = LogLevel.Error ∨ lvl = LogLevel.Always)) ∧
    (cfg.NDEBUG = false →
      (DD_WILL_PRINT (DD_OPT_LOG_LEVEL_VALUE cfg) lvl = true ↔
        lvl = LogLevel.Verbose ∨ lvl = LogLevel.Info ∨ lvl = LogLevel.Warn ∨
        lvl = LogLevel.Error ∨ lvl = LogLevel.Always)) := by
  constructor
  · intro hn
    have hv : DD_OPT_LOG_LEVEL_VALUE cfg = 4 := by
      simp [DD_OPT_LOG_LEVEL_VALUE, hundefined, hn, LogLevel.Error]
    rw [hv]
    exact DD_WILL_PRINT_from_Error_iff lvl
  · intro hn
    have hv : DD_OPT_LOG_LEVEL_VALUE cfg = 1 := by
      simp [DD_OPT_LOG_LEVEL_VALUE, hundefined, hn, LogLevel.Verbose]
    rw [hv]
    exact DD_WILL_PRINT_from_Verbose_iff lvl

/-- Witness of C18: the sample non-debug build with `DD_OPT_LOG_LEVEL` undefined, at level
`Warn`. -/
theorem C18_default_log_levels_witness :
    (releaseWithAsserts.NDEBUG = true →
      (DD_WILL_PRINT (DD_OPT_LOG_LEVEL_VALUE releaseWithAsserts) LogLevel.Warn = true ↔
        LogLevel.Warn = LogLevel.Error ∨ LogLevel.Warn = LogLevel.Always)) ∧
    (releaseWithAsserts.NDEBUG = false →
      (DD_WILL_PRINT (DD_OPT_LOG_LEVEL_VALUE releaseWithAsserts) LogLevel.Warn = true ↔
        LogLevel.Warn = LogLevel.Verbose ∨ LogLevel.Warn = LogLevel.Info ∨
        LogLevel.Warn = LogLevel.Warn ∨
        LogLevel.Warn = LogLevel.Error ∨ LogLevel.Warn = LogLevel.Always)) :=
  C18_default_log_levels releaseWithAsserts LogLevel.Warn rfl

/-! ## Claims on the layout and the request size of NewArray -/

/-- A word of at most 64 bytes that ends 64 bytes into a block starts inside the block. -/
theorem header_word_inside (b k : Nat) (h : k ≤ 64) :
    b ≤ b + 64 - k ∧ b + 64 - k + k = b + 64 := by
  omega

/-- Element `i < n` of `n` elements of `s` bytes placed 64 bytes into a block of
`s * n + 64` bytes ends inside the block. -/
theorem element_inside (b s n i : Nat) (hi : i < n) :
    b + 64 + (i + 1) * s ≤ b + (s * n + 64) := by
  have hmul : (i + 1) * s ≤ n * s := Nat.mul_le_mul_right s hi
  rw [Nat.mul_comm s n]
  omega

/-- C19: under the precondition that `sizeof(T) * n + 64` does not overflow `size_t` and the
allocator returned a block of the requested size at `base` (with `sizeof(size_t)` at most the
64-byte header, as on the 32-bit and 64-bit targets), every write `NewArray<T>(n, alloc)`
performs lies inside that block: the header word, the one store, occupies
`[base + 64 - sizeof(size_t), base + 64)`, which starts at or after `base`; the constructed
elements are the elements `i < n`, element `i` occupying
`[base + 64 + i * sizeof(T), base + 64 + (i + 1) * sizeof(T))`, which starts at or after the
end of the header (no overlap) and ends at or before `base + allocSize`. -/
theorem C19_NewArray_writes_inside_block (w sizeofT n : Nat) (allocCb : AllocCb) (mem : Mem)
    (base : Ptr)
    (hfit : sizeofT * n + 64 < 2 ^ w)
    (hword : w / 8 ≤ DD_CACHE_LINE_BYTES)
    (hbase : allocCb.Alloc (sizeofT * n + 64) 64 false = base)
    (hnonnull : base ≠ nullptr) :
    allocations (NewArray w sizeofT n allocCb mem).2.2 = [(sizeofT * n + 64, 64, false)] ∧
    stores (NewArray w sizeofT n allocCb mem).2.2 = [(base + 64 - w / 8, n)] ∧
    base ≤ base + 64 - w / 8 ∧
    (base + 64 - w / 8) + w / 8 = base + 64 ∧
    constructions (NewArray w sizeofT n allocCb mem).2.2 =
      elementAddresses (base + 64) sizeofT n ∧
    (∀ i, i < n →
      (elementAddresses (base + 64) sizeofT n)[i]? = some (base + 64 + i * sizeofT) ∧
      base + 64 ≤ base + 64 + i * sizeofT ∧
      base + 64 + (i + 1) * sizeofT ≤ base + (sizeofT * n + 64)) := by
  have hsize : (sizeofT * n % 2 ^ w + 64) % 2 ^ w = sizeofT * n + 64 := by
    have h1 : sizeofT * n < 2 ^ w := by omega
    rw [Nat.mod_eq_of_lt h1, Nat.mod_eq_of_lt hfit]
  have hsucc : allocCb.Alloc ((sizeofT * n % 2 ^ w + 64) % 2 ^ w) 64 false ≠ nullptr := by
    rw [hsize, hbase]
    exact hnonnull
  simp only [DD_CACHE_LINE_BYTES] at hword
  rw [NewArray_success w sizeofT n allocCb mem hsucc, hsize, hbase]
  refine ⟨?_, ?_, (header_word_inside base (w / 8) hword).1,
    (header_word_inside base (w / 8) hword).2, ?_, ?_⟩
  · simp [allocations, List.filterMap_cons]
  · simp [stores, List.filterMap_cons]
  · have h := constructions_map_Construct (elementAddresses (base + 64) sizeofT n)
    unfold constructions at h ⊢
    simp only [List.filterMap_cons]
    exact h
  · intro i hi
    refine ⟨?_, Nat.le_add_right _ _, ?_⟩
    · simp [elementAddresses, List.getElem?_range hi]
    · exact element_inside base sizeofT n i hi

/-- Witness of C19: 3 elements of 4 bytes on a 64-bit target, block at 4096. -/
theorem C19_NewArray_writes_inside_block_witness :
    allocations (NewArray 64 4 3 fixedAlloc zeroMem).2.2 = [(4 * 3 + 64, 64, false)] ∧
    stores (NewArray 64 4 3 fixedAlloc zeroMem).2.2 = [(4096 + 64 - 64 / 8, 3)] ∧
    4096 ≤ 4096 + 64 - 64 / 8 ∧
    (4096 + 64 - 64 / 8) + 64 / 8 = 4096 + 64 ∧
    constructions (NewArray 64 4 3 fixedAlloc zeroMem).2.2 =
      elementAddresses (4096 + 64) 4 3 ∧
    (∀ i, i < 3 →
      (elementAddresses (4096 + 64) 4 3)[i]? = some (4096 + 64 + i * 4) ∧
      4096 + 64 ≤ 4096 + 64 + i * 4 ∧
      4096 + 64 + (i + 1) * 4 ≤ 4096 + (4 * 3 + 64)) :=
  C19_NewArray_writes_inside_block 64 4 3 fixedAlloc zeroMem 4096 (by norm_num) (by decide)
    rfl (by decide)

/-- C21, as stated, fails where the previous handle of `a` is also the previous handle of
`b`, or is null: with the instances at addresses 1 and 2 both holding handle 100, after
`a.Swap(&b)` the instance `a` still holds 100, its previous handle; and with `a` (at
address 3) unloaded and `b` (at address 1) holding 100, after `a.Swap(&b)` the instance `b`
holds null, which is what `a` held. -/
theorem C21_counterexample_previous_handle_still_held :
    sharedLibraries 1 = 100 ∧
    (Library.Swap sharedLibraries 1 2).1 1 = sharedLibraries 1 ∧
    twoLibraries 3 = nullptr ∧
    (Library.Swap twoLibraries 3 1).1 1 = twoLibraries 3 := by
  decide

/-- C21 (amended): for every pair of distinct `Library` instances `a` and `b`, after
`a.Swap(&b)` the instance `a` holds the previous handle of `b`, `b` holds null
(`b.IsLoaded()` is false), and the previous handle of `a`, when it is non-null and is not
also the previous handle of `b`, is held by neither instance; no handle is closed; and
`a.Swap(&a)` leaves `a` with a null handle. -/
theorem C21_Library_Swap_drops_previous (heap : LibraryHeap) (a b : Ptr) (hdistinct : a ≠ b) :
    (Library.Swap heap a b).1 a = heap b ∧
    (Library.Swap heap a b).1 b = nullptr ∧
    Library.IsLoaded (Library.Swap heap a b).1 b = false ∧
    (heap a ≠ nullptr → heap a ≠ heap b →
      (Library.Swap heap a b).1 a ≠ heap a ∧ (Library.Swap heap a b).1 b ≠ heap a) ∧
    (Library.Swap heap a b).2 = [] ∧
    (Library.Swap heap a a).1 a = nullptr ∧
    Library.IsLoaded (Library.Swap heap a a).1 a = false ∧
    (Library.Swap heap a a).2 = [] := by
  have ha : (Library.Swap heap a b).1 a = heap b := by
    simp [Library.Swap, Function.update_noteq hdistinct]
  have hb : (Library.Swap heap a b).1 b = nullptr := by
    simp [Library.Swap]
  have haa : (Library.Swap heap a a).1 a = nullptr := by
    simp [Library.Swap]
  refine ⟨ha, hb, ?_, ?_, rfl, haa, ?_, rfl⟩
  · simp [Library.IsLoaded, hb]
  · intro hnull hne
    rw [ha, hb]
    exact ⟨fun h => hne h.symm, fun h => hnull h.symm⟩
  · simp [Library.IsLoaded, haa]

/-- Witness of C21 (amended): the instances at addresses 1 and 2 of the sample objects,
holding the handles 100 and 200. -/
theorem C21_Library_Swap_drops_previous_witness :
    (Library.Swap twoLibraries 1 2).1 1 = twoLibraries 2 ∧
    (Library.Swap twoLibraries 1 2).1 2 = nullptr ∧
    Library.IsLoaded (Library.Swap twoLibraries 1 2).1 2 = false ∧
    (twoLibraries 1 ≠ nullptr → twoLibraries 1 ≠ twoLibraries 2 →
      (Library.Swap twoLibraries 1 2).1 1 ≠ twoLibraries 1 ∧
      (Library.Swap twoLibraries 1 2).1 2 ≠ twoLibraries 1) ∧
    (Library.Swap twoLibraries 1 2).2 = [] ∧
    (Library.Swap twoLibraries 1 1).1 1 = nullptr ∧
    Library.IsLoaded (Library.Swap twoLibraries 1 1).1 1 = false ∧
    (Library.Swap twoLibraries 1 1).2 = [] :=
  C21_Library_Swap_drops_previous twoLibraries 1 2 (by decide)

/-- C22: when asserts are compiled in, `DD_ASSERT(expr)` and `DD_WARN(expr)` each evaluate
`expr` exactly twice on every execution (once for `check_expr_is_bool`, once for the
condition test), whatever its value: two evaluations are recorded and the program state
afterwards is the state after two evaluations in a row; when asserts are not compiled in,
they evaluate `expr` zero times and leave the state as it was. -/
theorem C22_assert_evaluates_twice {S : Type} (cfg : BuildConfig) (file : String) (line : Nat)
    (func text : String) (statement : S → Bool × S) (s : S) :
    (assertsEnabled cfg = true →
      evaluations (DD_ASSERT cfg file line func text statement s).2 = 2 ∧
      (DD_ASSERT cfg file line func text statement s).1 = (statement (statement s).2).2 ∧
      evaluations (DD_WARN cfg file line func text statement s).2 = 2 ∧
      (DD_WARN cfg file line func text statement s).1 = (statement (statement s).2).2) ∧
    (assertsEnabled cfg = false →
      evaluations (DD_ASSERT cfg file line func text statement s).2 = 0 ∧
      (DD_ASSERT cfg file line func text statement s).1 = s ∧
      evaluations (DD_WARN cfg file line func text statement s).2 = 0 ∧
      (DD_WARN cfg file line func text statement s).1 = s) := by
  constructor
  · intro hen
    cases hv : (statement (statement s).2).1
    · refine ⟨?_, ?_, ?_, ?_⟩
      · simp only [DD_ASSERT, hen, hv, if_true, Bool.not_false, DD_ASSERT_DEBUG_BREAK,
          DD_PRINT, LogString, evaluations]
        by_cases hp : DD_WILL_PRINT (DD_OPT_LOG_LEVEL_VALUE cfg) LogLevel.Error = true <;>
          by_cases hb : assertsDebugBreak cfg = true <;> simp [hp, hb]
      · simp [DD_ASSERT, hen, hv]
      · simp only [DD_WARN, hen, hv, if_true, Bool.not_false, DD_PRINT, LogString,
          evaluations]
        by_cases hp : DD_WILL_PRINT (DD_OPT_LOG_LEVEL_VALUE cfg) LogLevel.Warn = true <;>
          simp [hp]
      · simp [DD_WARN, hen, hv]
    · simp [DD_ASSERT, DD_WARN, hen, hv, evaluations]
  · intro hdis
    simp [DD_ASSERT, DD_WARN, hdis, evaluations]

/-- Witness of C22: the counting expression of value `false` in the sample non-debug build
that enables asserts, from the state 0: the state afterwards is that of two evaluations. -/
theorem C22_assert_evaluates_twice_witness :
    assertsEnabled releaseWithAsserts = true ∧
    evaluations (DD_ASSERT releaseWithAsserts "a.cpp" 10 "f" "x" (countingExpr false) 0).2 = 2 ∧
    (DD_ASSERT releaseWithAsserts "a.cpp" 10 "f" "x" (countingExpr false) 0).1 =
      (countingExpr false (countingExpr false 0).2).2 ∧
    evaluations (DD_WARN releaseWithAsserts "a.cpp" 10 "f" "x" (countingExpr false) 0).2 = 2 ∧
    (DD_WARN releaseWithAsserts "a.cpp" 10 "f" "x" (countingExpr false) 0).1 =
      (countingExpr false (countingExpr false 0).2).2 :=
  ⟨by decide,
    (C22_assert_evaluates_twice releaseWithAsserts "a.cpp" 10 "f" "x" (countingExpr false) 0).1
      (by decide)⟩

/-! ## Claims on the recurrence of Random -/

/-- The multiplier is odd, so it has no common factor with the modulus `2 ^ 48`. -/
theorem Random.kModulus_coprime_kMultiplier :
    Nat.gcd Random.kModulus Random.kMultiplier = 1 := by
  have hm : Random.kModulus = 2 ^ 48 := by decide
  rw [hm]
  have hodd : Nat.Coprime 2 Random.kMultiplier := by
    rw [Nat.coprime_two_left]
    decide
  exact Nat.Coprime.pow_left 48 hodd

/-- The recurrence stays below the modulus. -/
theorem Random.next_lt (state : Nat) : Random.next state < Random.kModulus :=
  Nat.mod_lt _ (by decide)

/-- The recurrence is injective on the states below the modulus. -/
theorem Random.next_injOn (s1 s2 : Nat) (h1 : s1 < Random.kModulus)
    (h2 : s2 < Random.kModulus) (h : Random.next s1 = Random.next s2) : s1 = s2 := by
  have hmod : s1 * Random.kMultiplier + Random.kIncrement ≡
      s2 * Random.kMultiplier + Random.kIncrement [MOD Random.kModulus] := h
  have hmul : s1 * Random.kMultiplier ≡ s2 * Random.kMultiplier [MOD Random.kModulus] :=
    Nat.ModEq.add_right_cancel' _ hmod
  have hs : s1 ≡ s2 [MOD Random.kModulus] :=
    Nat.ModEq.cancel_right_of_coprime Random.kModulus_coprime_kMultiplier hmul
  exact Nat.ModEq.eq_of_lt_of_lt hs h1 h2

/-- C23: with the constants declared in `Random`, the state transition
`s -> (s * kMultiplier + kIncrement) mod kModulus` is a bijection on the states
`0 <= s < 2^48`: it maps every state to a state, two different states never map to the same
next state, and every state is the next state of some state. -/
theorem C23_Random_next_bijective :
    Random.kModulus = 2 ^ 48 ∧
    (∀ s, Random.next s < Random.kModulus) ∧
    (∀ s1 s2, s1 < Random.kModulus → s2 < Random.kModulus → s1 ≠ s2 →
      Random.next s1 ≠ Random.next s2) ∧
    (∀ t, t < Random.kModulus → ∃ s, s < Random.kModulus ∧ Random.next s = t) := by
  refine ⟨by decide, Random.next_lt, ?_, ?_⟩
  · intro s1 s2 h1 h2 hne heq
    exact hne (Random.next_injOn s1 s2 h1 h2 heq)
  · have hinj : Function.Injective (fun s : Fin Random.kModulus =>
        (⟨Random.next s.1, Random.next_lt s.1⟩ : Fin Random.kModulus)) := by
      intro a b hab
      exact Fin.ext (Random.next_injOn a.1 b.1 a.2 b.2 (congrArg Fin.val hab))
    have hsurj := Finite.injective_iff_surjective.mp hinj
    intro t ht
    obtain ⟨s, hs⟩ := hsurj ⟨t, ht⟩
    exact ⟨s.1, s.2, congrArg Fin.val hs⟩

/-- C24: for every 64-bit state word `s` (and every larger number), computing the transition
in wrapping `uint64` arithmetic, `((s * kMultiplier + kIncrement) mod 2^64) mod kModulus`
with the product wrapped as well, gives the same value as the exact integer expression
`(s * kMultiplier + kIncrement) mod kModulus`, although the product can exceed `2^64` (it
does for `s = 2^30`); the result is always below `2^48`. -/
theorem C24_Random_wrapping_agrees (s : Nat) :
    Random.nextWrapped s = Random.next s ∧
    ((s * Random.kMultiplier + Random.kIncrement) % 2 ^ 64) % Random.kModulus =
      Random.next s ∧
    Random.next s < 2 ^ 48 ∧
    (2 ^ 30 < 2 ^ 64 ∧ 2 ^ 64 ≤ 2 ^ 30 * Random.kMultiplier + Random.kIncrement) := by
  have hdvd : Random.kModulus ∣ 2 ^ 64 := ⟨2 ^ 16, by decide⟩
  have hlt : Random.next s < 2 ^ 48 := by
    have h := Random.next_lt s
    have hm : Random.kModulus = 2 ^ 48 := by decide
    rw [hm] at h
    exact h
  refine ⟨?_, ?_, hlt, by decide, by decide⟩
  · unfold Random.nextWrapped Random.next
    rw [Nat.mod_add_mod, Nat.mod_mod_of_dvd _ hdvd]
  · unfold Random.next
    rw [Nat.mod_mod_of_dvd _ hdvd]

end DevDriver
